import Mathlib

/-!
Verification of the gmail-handler repository: a shallow embedding of the
MIME message builder (pkg/email/builder.go, `BuildMime`), the keyless
token source (pkg/auth/dwd.go, `KeylessTokenSource.Token`) and the HTTP
handler (function.go, `HandleEmail`), together with theorems settling the
specification claims.

Strings are modelled with Lean `String` (Go byte strings are treated as
character sequences; all constants involved are ASCII, so `len` and
concatenation agree).
-/

/-! ## Constants (pkg/constants) -/

def headerFrom : String := "From"

def headerTo : String := "To"

def headerCC : String := "Cc"

def headerBCC : String := "Bcc"

def headerReplyTo : String := "Reply-To"

def headerSubject : String := "Subject"

def headerMIMEVersion : String := "MIME-Version"

def headerDisposition : String := "Content-Disposition"

def headerTransferEnc : String := "Content-Transfer-Encoding"

def headerContentType : String := "Content-Type"

def headerReceipt : String := "Disposition-Notification-To"

def mimeMultipartMixed : String := "multipart/mixed"

def mimeTextHTML : String := "text/html"

def charsetUTF8 : String := "charset=UTF-8"

def encodingBase64 : String := "base64"

def mimeVer1 : String := "1.0"

def dispositionAttachment : String := "attachment"

def labelStarred : String := "STARRED"

def labelImportant : String := "IMPORTANT"

def oauth2GrantType : String := "urn:ietf:params:oauth:grant-type:jwt-bearer"

def oauth2AssertionKey : String := "assertion"

def oauth2TokenURL : String := "https://oauth2.googleapis.com/token"

def grantTypeKey : String := "grant_type"

def crlf : String := "\r\n"

/-! ## String helper lemmas -/

theorem strData_append (a b : String) : (a ++ b).data = a.data ++ b.data := rfl

theorem strOfData (a : String) : String.mk a.data = a := rfl

theorem strAppend_assoc (a b c : String) : a ++ b ++ c = a ++ (b ++ c) := by
  cases a; cases b; cases c
  show String.mk _ = String.mk _
  rw [List.append_assoc]

theorem strNil_append (a : String) : "" ++ a = a := by
  cases a; rfl

theorem strAppend_nil (a : String) : a ++ "" = a := by
  cases a
  show String.mk _ = String.mk _
  rw [List.append_nil]

/-- Concatenation of a list of strings, in order (models sequential
`WriteString` calls on the output buffer). -/
def strConcat : List String → String
  | [] => ""
  | s :: rest => s ++ strConcat rest

/-- Model of Go `strings.Join(xs, ", ")` as used for the Cc and Bcc lists. -/
def joinComma : List String → String
  | [] => ""
  | [x] => x
  | x :: y :: rest => x ++ ", " ++ joinComma (y :: rest)

/-! ## Email request data model (pkg/email/builder.go) -/

/-- Attachment mirrors the Go struct: filename, base64 content, MIME type. -/
structure Attachment where
  filename : String
  contentB64 : String
  mimeType : String
deriving DecidableEq, Repr

/-- Options mirrors the Go struct (starred, read receipt, label ids, important). -/
structure Options where
  starred : Bool
  readReceipt : Bool
  labelIDs : List String
  important : Bool
deriving DecidableEq, Repr

/-- Request mirrors the Go `email.Request` struct.  `customHeaders` is a Go
`map[string]string`; it is modelled as an association list whose order
stands for the map iteration order of the `range` loop in `BuildMime`.
The `fromAddress` field is the one written by the handler
(`req.FromAddress = aliasEmail`, function.go line 133); `BuildMime` never
reads it. -/
structure Request where
  campaignID : String
  senderName : String
  fromAddress : String
  recipient : String
  cc : List String
  bcc : List String
  replyTo : String
  subject : String
  bodyHTML : String
  options : Options
  attachments : List Attachment
  customHeaders : List (String × String)
deriving DecidableEq, Repr

/-! ## Sanitizer model

Modelled from the spec: the sanitization policy is the external
`bluemonday.UGCPolicy()` dependency (not part of this repository), described
by the spec as a fixed permissive-but-safe policy that strips script-bearing
and dangerous markup and retains common safe formatting tags.  The model keeps
text, keeps tags whose name is in the allowlist (attributes dropped), and
strips all other tags. -/

/-- Allowlisted element names, modelled from the spec phrase
"retains common safe formatting tags/attributes" (the UGC policy element
set). -/
def allowedTagsL : List (List Char) :=
  (["a", "b", "blockquote", "br", "caption", "cite", "code", "col",
    "colgroup", "dd", "del", "details", "dfn", "div", "dl", "dt", "em",
    "figcaption", "figure", "h1", "h2", "h3", "h4", "h5", "h6", "hr", "i",
    "img", "ins", "kbd", "li", "mark", "ol", "p", "pre", "q", "rp", "rt",
    "ruby", "s", "samp", "small", "span", "strike", "strong", "sub",
    "summary", "sup", "table", "tbody", "td", "tfoot", "th", "thead",
    "time", "tr", "u", "ul", "var", "wbr"]).map String.data

/-- Raw text of a tag with a leading slash (of a closing tag) removed. -/
def tagCore (raw : List Char) : List Char :=
  if raw.head? = some '/' then raw.tail else raw

/-- Element name of a tag: the core text up to the first space. -/
def tagNameOf (raw : List Char) : List Char :=
  (tagCore raw).takeWhile (fun c => c ≠ ' ')

/-- Text re-emitted for an allowlisted tag: slash (for closing tags) plus the
element name; attributes are dropped by the model. -/
def emittedTag (raw : List Char) : List Char :=
  if raw.head? = some '/' then '/' :: tagNameOf raw else tagNameOf raw

/-- Sanitizer core: fuel-indexed so that every recursion is structural and
evaluation reduces definitionally.  On a `<` the text up to the matching `>`
is read as a tag; allowlisted tags are re-emitted (name only), all other
tags are removed; every other character is kept. -/
def sanitizeAux : Nat → List Char → List Char
  | 0, _ => []
  | _ + 1, [] => []
  | fuel + 1, c :: rest =>
    if c = '<' then
      let raw := rest.takeWhile (fun x => x ≠ '>')
      let rest2 := (rest.dropWhile (fun x => x ≠ '>')).tail
      if tagNameOf raw ∈ allowedTagsL then
        '<' :: emittedTag raw ++ '>' :: sanitizeAux fuel rest2
      else
        sanitizeAux fuel rest2
    else
      c :: sanitizeAux fuel rest

/-- Model of `policy.Sanitize` for the policy returned by `SecurityPolicy`
(which ignores the campaign id and always returns the UGC policy). -/
def sanitize (s : String) : String :=
  String.mk (sanitizeAux (s.data.length + 1) s.data)

/-! ## BuildMime (pkg/email/builder.go) -/

/-- Model of the `formatAddr` closure in `BuildMime`: empty values produce
no header line. -/
def formatAddr (header value : String) : String :=
  if value = "" then "" else header ++ ": " ++ value ++ crlf

/-- From header of `BuildMime`: the literal address `me`, with the display
name quoted in front when present. -/
def fromHeader (req : Request) : String :=
  if req.senderName = "" then headerFrom ++ ": me" ++ crlf
  else headerFrom ++ ": \"" ++ req.senderName ++ "\" <me>" ++ crlf

/-- Top-level header block written by `BuildMime` before the first part
(the Go code appends to the `headers` string in exactly this order; the
custom-header loop order is the association list order of the model). -/
def topHeaders (req : Request) (boundary : String) : String :=
  fromHeader req
  ++ formatAddr headerTo req.recipient
  ++ (if req.cc.length > 0 then formatAddr headerCC (joinComma req.cc) else "")
  ++ (if req.bcc.length > 0 then formatAddr headerBCC (joinComma req.bcc) else "")
  ++ (if req.replyTo ≠ "" then formatAddr headerReplyTo req.replyTo else "")
  ++ formatAddr headerSubject req.subject
  ++ (headerMIMEVersion ++ ": " ++ mimeVer1 ++ crlf)
  ++ (headerContentType ++ ": " ++ mimeMultipartMixed ++ "; boundary=" ++ boundary ++ crlf)
  ++ (if req.options.readReceipt then headerReceipt ++ ": me" ++ crlf else "")
  ++ strConcat (req.customHeaders.map (fun kv => formatAddr kv.1 kv.2))

/-- One part of the multipart message: its MIME headers (in the order the
multipart writer renders them, i.e. sorted by canonical key, as
`multipart.Writer.CreatePart` sorts header keys) and its body. -/
structure MimePart where
  headers : List (String × String)
  content : String
deriving DecidableEq, Repr

/-- Headers of the HTML body part. -/
def bodyPartHeaders : List (String × String) :=
  [(headerContentType, mimeTextHTML ++ "; " ++ charsetUTF8)]

/-- Headers of an attachment part, listed in the sorted-key order used by
`CreatePart` (Content-Disposition < Content-Transfer-Encoding <
Content-Type). -/
def attPartHeaders (att : Attachment) : List (String × String) :=
  [(headerDisposition, dispositionAttachment ++ "; filename=\"" ++ att.filename ++ "\""),
   (headerTransferEnc, encodingBase64),
   (headerContentType, att.mimeType)]

/-- Model of `strings.ReplaceAll(att.ContentB64, "\n", "")`: replacing each
single-character occurrence of the newline by the empty string removes
exactly the newline characters. -/
def cleanContent (s : String) : String :=
  String.mk (s.data.filter (fun c => c ≠ '\n'))

/-- The HTML body part written by step 4 of `BuildMime`. -/
def bodyPart (req : Request) : MimePart :=
  ⟨bodyPartHeaders, sanitize req.bodyHTML⟩

/-- The attachment part written for one attachment by step 5 of `BuildMime`. -/
def attPart (att : Attachment) : MimePart :=
  ⟨attPartHeaders att, cleanContent att.contentB64⟩

/-- The sequence of parts `BuildMime` emits: the body part first, then one
part per attachment in input order. -/
def mimeParts (req : Request) : List MimePart :=
  bodyPart req :: req.attachments.map attPart

/-- Header lines of a part as rendered by `CreatePart`. -/
def renderHeaders (hs : List (String × String)) : String :=
  strConcat (hs.map (fun kv => kv.1 ++ ": " ++ kv.2 ++ crlf))

/-- Rendering of one part: the dash-boundary delimiter (with a leading CRLF
except for the first part), the header lines, a blank line, the body. -/
def renderPart (boundary : String) (first : Bool) (p : MimePart) : String :=
  (if first then "--" ++ boundary ++ crlf else crlf ++ "--" ++ boundary ++ crlf)
  ++ renderHeaders p.headers ++ crlf ++ p.content

/-- Rendering of the part sequence. -/
def renderParts (boundary : String) : List MimePart → String
  | [] => ""
  | p :: ps => renderPart boundary true p ++ strConcat (ps.map (renderPart boundary false))

/-- Closing delimiter written by `multipart.Writer.Close`. -/
def closeDelim (boundary : String) : String :=
  crlf ++ "--" ++ boundary ++ "--" ++ crlf

/-- BuildMime as a function of the request and of the boundary generated by
`multipart.NewWriter` for this invocation.  The Go function draws the
boundary at random inside `NewWriter`; everything else it writes is a pure
function of the request and that boundary. -/
def buildMime (req : Request) (boundary : String) : String :=
  topHeaders req boundary ++ crlf
  ++ renderParts boundary (mimeParts req)
  ++ closeDelim boundary

/-- Model of Go `randomBoundary()` as called by `multipart.NewWriter`: the
lower-case hex rendering of 30 random bytes.  The `entropy` argument stands
for the bytes read from the random source. -/
def hexDigit (n : Nat) : Char :=
  if n < 10 then Char.ofNat (48 + n) else Char.ofNat (87 + n)

/-- Two lower-case hex digits of one byte. -/
def byteHex (b : Nat) : List Char :=
  [hexDigit (b / 16 % 16), hexDigit (b % 16)]

/-- Boundary generated from the 30 random bytes drawn by `NewWriter`. -/
def randomBoundary (entropy : List Nat) : String :=
  String.mk (((entropy.take 30).map byteHex).flatten)

/-! ## BuildMime with the error plumbing of the Go code

The Go function checks errors from `CreatePart` and `Close`.  Those errors
can only come from writes to the underlying writer, and the underlying
writer is a `bytes.Buffer`, whose `Write` is documented to always return a
nil error.  The model below mirrors the fallible signatures, with the
buffer write as the (infallible) base operation. -/

/-- Write to the in-memory `bytes.Buffer`; never fails. -/
def bufWriteString (buf s : String) : String := buf ++ s

/-- Model of `writer.CreatePart`: writes the boundary delimiter and the
part header block, returning the grown buffer or an error from the
underlying writes (none can occur with a buffer sink). -/
def createPartE (buf boundary : String) (first : Bool) (hs : List (String × String)) :
    Except String String :=
  Except.ok (bufWriteString buf
    ((if first then "--" ++ boundary ++ crlf else crlf ++ "--" ++ boundary ++ crlf)
      ++ renderHeaders hs ++ crlf))

/-- Model of `writer.Close`: writes the closing delimiter. -/
def writerCloseE (buf boundary : String) : Except String String :=
  Except.ok (bufWriteString buf (closeDelim boundary))

/-- The attachment loop of `BuildMime` step 5, with the early return on a
`CreatePart` error. -/
def attachLoopE (boundary : String) (buf : String) : List Attachment → Except String String
  | [] => Except.ok buf
  | att :: rest =>
    match createPartE buf boundary false (attPartHeaders att) with
    | Except.error e => Except.error e
    | Except.ok buf2 => attachLoopE boundary (bufWriteString buf2 (cleanContent att.contentB64)) rest

/-- BuildMime with the error propagation of the Go source: sanitize the
body, write the top-level headers plus a blank line, create the body part
and write the sanitized body, loop over the attachments, close the
envelope. -/
def buildMimeE (req : Request) (boundary : String) : Except String String :=
  let safeBody := sanitize req.bodyHTML
  let buf := bufWriteString "" (topHeaders req boundary ++ crlf)
  match createPartE buf boundary true bodyPartHeaders with
  | Except.error e => Except.error e
  | Except.ok buf2 =>
    let buf3 := bufWriteString buf2 safeBody
    match attachLoopE boundary buf3 req.attachments with
    | Except.error e => Except.error e
    | Except.ok buf4 => writerCloseE buf4 boundary

/-! ## Sanitizer output safety -/

/-- Structure of sanitizer output: a sequence of plain characters other
than `<`, and allowlisted tag chunks `<t>` whose text `t` contains no `<`
and does not start with `sc`. -/
inductive SafeOut : List Char → Prop
  | nil : SafeOut []
  | plain (c : Char) (l : List Char) : c ≠ '<' → SafeOut l → SafeOut (c :: l)
  | tag (t l : List Char) : (∀ c ∈ t, c ≠ '<') → t.take 2 ≠ ['s', 'c'] →
      SafeOut l → SafeOut ('<' :: t ++ '>' :: l)

theorem allowed_no_lt : ∀ t ∈ allowedTagsL, ∀ c ∈ t, c ≠ '<' := by decide

theorem allowed_take2 : ∀ t ∈ allowedTagsL, t.take 2 ≠ ['s', 'c'] := by decide

theorem emittedTag_no_lt (raw : List Char) (h : tagNameOf raw ∈ allowedTagsL) :
    ∀ c ∈ emittedTag raw, c ≠ '<' := by
  intro c hc
  unfold emittedTag at hc
  by_cases hh : raw.head? = some '/'
  · rw [if_pos hh] at hc
    rcases List.mem_cons.mp hc with hc | hc
    · subst hc; decide
    · exact allowed_no_lt _ h c hc
  · rw [if_neg hh] at hc
    exact allowed_no_lt _ h c hc

theorem emittedTag_take2 (raw : List Char) (h : tagNameOf raw ∈ allowedTagsL) :
    (emittedTag raw).take 2 ≠ ['s', 'c'] := by
  unfold emittedTag
  by_cases hh : raw.head? = some '/'
  · rw [if_pos hh]
    intro hcontra
    rw [show (2 : Nat) = 1 + 1 from rfl, List.take_succ_cons] at hcontra
    injection hcontra with h1 _
    exact absurd h1 (by decide)
  · rw [if_neg hh]
    exact allowed_take2 _ h

theorem sanitizeAux_safe : ∀ (fuel : Nat) (l : List Char), SafeOut (sanitizeAux fuel l) := by
  intro fuel
  induction fuel with
  | zero => intro l; exact SafeOut.nil
  | succ n ih =>
    intro l
    cases l with
    | nil => exact SafeOut.nil
    | cons c rest =>
      by_cases hc : c = '<'
      · rw [show sanitizeAux (n + 1) (c :: rest) =
          (if c = '<' then
            (if tagNameOf (rest.takeWhile (fun x => x ≠ '>')) ∈ allowedTagsL then
              '<' :: emittedTag (rest.takeWhile (fun x => x ≠ '>')) ++
                '>' :: sanitizeAux n ((rest.dropWhile (fun x => x ≠ '>')).tail)
            else sanitizeAux n ((rest.dropWhile (fun x => x ≠ '>')).tail))
          else c :: sanitizeAux n rest) from rfl]
        rw [if_pos hc]
        by_cases ht : tagNameOf (rest.takeWhile (fun x => x ≠ '>')) ∈ allowedTagsL
        · rw [if_pos ht]
          exact SafeOut.tag _ _ (emittedTag_no_lt _ ht) (emittedTag_take2 _ ht) (ih _)
        · rw [if_neg ht]
          exact ih _
      · rw [show sanitizeAux (n + 1) (c :: rest) =
          (if c = '<' then
            (if tagNameOf (rest.takeWhile (fun x => x ≠ '>')) ∈ allowedTagsL then
              '<' :: emittedTag (rest.takeWhile (fun x => x ≠ '>')) ++
                '>' :: sanitizeAux n ((rest.dropWhile (fun x => x ≠ '>')).tail)
            else sanitizeAux n ((rest.dropWhile (fun x => x ≠ '>')).tail))
          else c :: sanitizeAux n rest) from rfl]
        rw [if_neg hc]
        exact SafeOut.plain _ _ hc (ih rest)

/-- Splitting an infix occurrence at a cons cell: the pattern either starts
at the head or occurs in the tail. -/
theorem isInfix_cons_cases {p : List Char} {a : Char} {l : List Char}
    (h : List.IsInfix p (a :: l)) :
    (∃ s, a :: l = p ++ s) ∨ List.IsInfix p l := by
  rcases h with ⟨s, t, hst⟩
  cases s with
  | nil =>
    left
    exact ⟨t, by simpa using hst.symm⟩
  | cons b s2 =>
    right
    have hb : b :: (s2 ++ p ++ t) = a :: l := by simpa using hst
    injection hb with h1 h2
    exact ⟨s2, t, h2⟩

/-- A pattern starting with `<` occurring in `t ++ l` where `t` has no `<`
must occur in `l`. -/
theorem isInfix_past_no_lt : ∀ (t l p : List Char), (∀ c ∈ t, c ≠ '<') →
    p.head? = some '<' → List.IsInfix p (t ++ l) → List.IsInfix p l := by
  intro t
  induction t with
  | nil => intro l p _ _ h; simpa using h
  | cons c t2 ih =>
    intro l p hno hhead h
    rcases isInfix_cons_cases (by simpa using h) with ⟨s, hs⟩ | h2
    · cases p with
      | nil => simp at hhead
      | cons q qs =>
        have hq : q = '<' := by simpa using hhead
        rw [List.cons_append] at hs
        injection hs with h1 _
        exact absurd (h1.trans hq) (hno c (by simp))
    · exact ih l p (fun x hx => hno x (by simp [hx])) hhead h2

theorem SafeOut.not_sc {l : List Char} (h : SafeOut l) :
    ¬ List.IsInfix ['<', 's', 'c'] l := by
  induction h with
  | nil =>
    intro hinf
    have := hinf.length_le
    simp at this
  | plain c l2 hc _ ih =>
    intro hinf
    rcases isInfix_cons_cases hinf with ⟨s, hs⟩ | h2
    · rw [List.cons_append] at hs
      injection hs with h1 _
      exact hc h1
    · exact ih h2
  | tag t l2 hno htake _ ih =>
    intro hinf
    rcases isInfix_cons_cases hinf with ⟨s, hs⟩ | h2
    · rw [List.cons_append, List.cons_append] at hs
      injection hs with _ hts
      cases t with
      | nil => simp at hts
      | cons a t2 =>
        rw [List.cons_append] at hts
        injection hts with ha hts2
        cases t2 with
        | nil => simp at hts2
        | cons b t3 =>
          have hts3 : b :: (t3 ++ '>' :: l2) = 'c' :: s := by simpa using hts2
          injection hts3 with hb _
          exact htake (by simp [ha, hb])
    · have h3 : List.IsInfix ['<', 's', 'c'] ('>' :: l2) :=
        isInfix_past_no_lt t ('>' :: l2) _ hno (by rfl) h2
      rcases isInfix_cons_cases h3 with ⟨s, hs⟩ | h4
      · rw [List.cons_append] at hs
        injection hs with h1 _
        exact absurd h1 (by decide)
      · exact ih h4

/-- The sanitizer never emits the substring `<script` (nor even `<sc`),
whatever the input. -/
theorem sanitize_no_script (s : String) :
    ¬ List.IsInfix ("<script").data (sanitize s).data := by
  intro h
  have hsplit : List.IsInfix ['<', 's', 'c'] (sanitize s).data := by
    rcases h with ⟨a, b, hab⟩
    refine ⟨a, 'r' :: 'i' :: 'p' :: 't' :: b, ?_⟩
    simpa using hab
  exact (sanitizeAux_safe _ _).not_sc hsplit

/-! ## Keyless token source (pkg/auth/dwd.go)

`KeylessTokenSource.Token` is modelled as a function of the configured
identities and of an environment providing the current time, the external
IAM signing call, and the HTTP POST to the token endpoint.  The two
`time.Now()` calls of the Go code (issued-at and expiry computation) are
modelled as the same instant. -/

/-- Opening brace character (written via its code point). -/
def lbraceChar : Char := Char.ofNat 123

/-- Closing brace character (written via its code point). -/
def rbraceChar : Char := Char.ofNat 125

/-- Double-quote character. -/
def quoteChar : Char := Char.ofNat 34

/-- KeylessTokenSource mirrors the Go struct configuration fields (the IAM
client handle is replaced by the signing call in the environment). -/
structure KeylessTokenSource where
  serviceAccountEmail : String
  delegateEmail : String
  scopes : List String
deriving DecidableEq, Repr

/-- The JWT claim set constructed by `Token` (iss, sub, scope, aud, exp, iat). -/
structure ClaimSet where
  iss : String
  sub : String
  scope : List String
  aud : String
  exp : Int
  iat : Int
deriving DecidableEq, Repr

/-- Claim set built by `Token`: issuer is the service account, subject the
delegate (impersonation target), scope the configured scopes, audience the
fixed token endpoint, issued-at now and expiry one hour later. -/
def mkClaims (k : KeylessTokenSource) (now : Int) : ClaimSet :=
  { iss := k.serviceAccountEmail
    sub := k.delegateEmail
    scope := k.scopes
    aud := oauth2TokenURL
    exp := now + 3600
    iat := now }

/-- Minimal JSON string escaping (quote and backslash), modelling
`encoding/json` marshalling of the claim string values. -/
def jsonEscape (s : String) : String :=
  String.mk (s.data.foldr
    (fun c acc => if c = quoteChar ∨ c = '\\' then '\\' :: c :: acc else c :: acc) [])

/-- A JSON string literal. -/
def jsonQ (s : String) : String :=
  String.singleton quoteChar ++ jsonEscape s ++ String.singleton quoteChar

/-- Comma separation without spaces, as `encoding/json` emits. -/
def joinSep : List String → String
  | [] => ""
  | [x] => x
  | x :: y :: rest => x ++ "," ++ joinSep (y :: rest)

/-- A JSON array of strings. -/
def jsonStrArray (l : List String) : String :=
  "[" ++ joinSep (l.map jsonQ) ++ "]"

/-- Model of `json.Marshal(claims)`: Go marshals a map with its keys in
sorted order (aud, exp, iat, iss, scope, sub). -/
def marshalClaims (c : ClaimSet) : String :=
  String.singleton lbraceChar
  ++ jsonQ "aud" ++ ":" ++ jsonQ c.aud ++ ","
  ++ jsonQ "exp" ++ ":" ++ toString c.exp ++ ","
  ++ jsonQ "iat" ++ ":" ++ toString c.iat ++ ","
  ++ jsonQ "iss" ++ ":" ++ jsonQ c.iss ++ ","
  ++ jsonQ "scope" ++ ":" ++ jsonStrArray c.scope ++ ","
  ++ jsonQ "sub" ++ ":" ++ jsonQ c.sub
  ++ String.singleton rbraceChar

/-- HTTP response as seen by the exchange step: numeric status code, status
line text, body. -/
structure HTTPResponse where
  statusCode : Nat
  statusText : String
  body : String
deriving DecidableEq, Repr

/-- Decoded token endpoint response fields. -/
structure TokenResponseJSON where
  accessToken : String
  expiresIn : Int
  tokenType : String
deriving DecidableEq, Repr

/-- The credential returned by `Token` (`oauth2.Token`): access token, token
type and absolute expiry time in seconds. -/
structure OAuthToken where
  accessToken : String
  tokenType : String
  expiry : Int
deriving DecidableEq, Repr

/-- Error taxonomy of the token provider, as the spec names it. -/
inductive TokenError where
  | signingError (msg : String)
  | exchangeError (msg : String)
deriving DecidableEq, Repr

/-! ### Mini JSON object reader

Model of `json.Decoder.Decode` into the anonymous response struct: a flat
JSON object with string and integer fields; unknown fields are ignored and
missing fields are zero-valued (as `encoding/json` does), while malformed
input or a wrong field type is an error. -/

/-- A flat JSON value. -/
inductive JVal where
  | jstr (s : String)
  | jint (n : Int)
deriving DecidableEq, Repr

/-- Skip JSON whitespace. -/
def skipWs : List Char → List Char
  | [] => []
  | c :: rest =>
    if c = ' ' ∨ c = '\n' ∨ c = '\t' ∨ c = '\r' then skipWs rest else c :: rest

/-- Read a string body up to the closing quote, honouring backslash
escapes; fuel-indexed for structural recursion. -/
def readStrBody : Nat → List Char → Option (List Char × List Char)
  | 0, _ => none
  | _ + 1, [] => none
  | fuel + 1, c :: rest =>
    if c = quoteChar then some ([], rest)
    else if c = '\\' then
      match rest with
      | [] => none
      | e :: rest2 =>
        match readStrBody fuel rest2 with
        | some (s, r) => some (e :: s, r)
        | none => none
    else
      match readStrBody fuel rest with
      | some (s, r) => some (c :: s, r)
      | none => none

/-- Read an integer literal (optional minus sign, one or more digits). -/
def readInt : List Char → Option (Int × List Char) :=
  fun l =>
    let neg := l.head? = some '-'
    let l2 := if neg then l.tail else l
    let digits := l2.takeWhile Char.isDigit
    let rest := l2.dropWhile Char.isDigit
    if digits = [] then none
    else
      let n : Nat := digits.foldl (fun acc c => acc * 10 + (c.toNat - 48)) 0
      some (if neg then -(n : Int) else (n : Int), rest)

/-- Read one JSON value (string or integer). -/
def readJVal (fuel : Nat) (l : List Char) : Option (JVal × List Char) :=
  match skipWs l with
  | [] => none
  | c :: rest =>
    if c = quoteChar then
      match readStrBody fuel rest with
      | some (s, r) => some (JVal.jstr (String.mk s), r)
      | none => none
    else
      match readInt (c :: rest) with
      | some (n, r) => some (JVal.jint n, r)
      | none => none

/-- Read the members of a JSON object after the opening brace, returning
them together with the input following the closing brace. -/
def readMembers : Nat → List Char → Option (List (String × JVal) × List Char)
  | 0, _ => none
  | fuel + 1, l =>
    match skipWs l with
    | [] => none
    | c :: rest =>
      if c = quoteChar then
        match readStrBody fuel rest with
        | none => none
        | some (k, r1) =>
          match skipWs r1 with
          | [] => none
          | c2 :: r2 =>
            if c2 = ':' then
              match readJVal fuel r2 with
              | none => none
              | some (v, r3) =>
                match skipWs r3 with
                | [] => none
                | c4 :: r4 =>
                  if c4 = ',' then
                    match readMembers fuel r4 with
                    | some (ms, r5) => some ((String.mk k, v) :: ms, r5)
                    | none => none
                  else if c4 = rbraceChar then some ([(String.mk k, v)], r4)
                  else none
            else none
      else none

/-- Read a whole flat JSON object, requiring only whitespace after it. -/
def readJSONObject (s : String) : Option (List (String × JVal)) :=
  match skipWs s.data with
  | [] => none
  | c :: rest =>
    if c = lbraceChar then
      match skipWs rest with
      | [] => none
      | c2 :: r2 =>
        if c2 = rbraceChar then
          match skipWs r2 with
          | [] => some []
          | _ => none
        else
          match readMembers (s.data.length + 1) (c2 :: r2) with
          | some (ms, r) =>
            match skipWs r with
            | [] => some ms
            | _ => none
          | none => none
    else none

/-- Look up a field of the decoded object. -/
def lookupJ (ms : List (String × JVal)) (k : String) : Option JVal :=
  (ms.find? (fun kv => kv.1 == k)).map (fun kv => kv.2)

/-- A string field: missing means the zero value, a number is a type error. -/
def getStrField (ms : List (String × JVal)) (k : String) : Except String String :=
  match lookupJ ms k with
  | none => Except.ok ""
  | some (JVal.jstr s) => Except.ok s
  | some (JVal.jint _) => Except.error ("cannot unmarshal number into field " ++ k)

/-- An integer field: missing means the zero value, a string is a type error. -/
def getIntField (ms : List (String × JVal)) (k : String) : Except String Int :=
  match lookupJ ms k with
  | none => Except.ok 0
  | some (JVal.jint n) => Except.ok n
  | some (JVal.jstr _) => Except.error ("cannot unmarshal string into field " ++ k)

/-- Decode the token endpoint response body into
`{access_token, expires_in, token_type}`. -/
def decodeTokenResponse (body : String) : Except String TokenResponseJSON :=
  match readJSONObject body with
  | none => Except.error "invalid json"
  | some ms =>
    match getStrField ms "access_token", getIntField ms "expires_in",
        getStrField ms "token_type" with
    | Except.ok a, Except.ok e, Except.ok t => Except.ok ⟨a, e, t⟩
    | Except.error e, _, _ => Except.error e
    | _, Except.error e, _ => Except.error e
    | _, _, Except.error e => Except.error e

/-- Environment of one `Token()` call: the current time, the IAM `SignJwt`
call (payload to signed JWT), and the HTTP form POST (url and form fields to
response; a transport error is `Except.error`). -/
structure TokenEnv where
  now : Int
  sign : String → Except String String
  post : String → List (String × String) → Except String HTTPResponse

/-- Form fields of the exchange POST: the jwt-bearer grant type and the
signed assertion. -/
def exchangeForm (signedJwt : String) : List (String × String) :=
  [(grantTypeKey, oauth2GrantType), (oauth2AssertionKey, signedJwt)]

/-- Model of `KeylessTokenSource.Token`: build and marshal the claim set,
have the IAM API sign it, POST the assertion to the fixed token endpoint,
require HTTP 200, decode the body, and return the credential with absolute
expiry now + expires-in. -/
def token (k : KeylessTokenSource) (env : TokenEnv) : Except TokenError OAuthToken :=
  match env.sign (marshalClaims (mkClaims k env.now)) with
  | Except.error e => Except.error (TokenError.signingError ("failed to sign jwt via IAM API: " ++ e))
  | Except.ok signedJwt =>
    match env.post oauth2TokenURL (exchangeForm signedJwt) with
    | Except.error e => Except.error (TokenError.exchangeError ("failed to exchange jwt for token: " ++ e))
    | Except.ok resp =>
      if resp.statusCode ≠ 200 then
        Except.error (TokenError.exchangeError ("oauth endpoint returned status: " ++ resp.statusText))
      else
        match decodeTokenResponse resp.body with
        | Except.error e => Except.error (TokenError.exchangeError ("failed to decode token response: " ++ e))
        | Except.ok r =>
          Except.ok { accessToken := r.accessToken, tokenType := r.tokenType, expiry := env.now + r.expiresIn }

/-- Modelled from the spec: the caller-side credential cache
(`oauth2.ReuseTokenSource`, an external collaborator) reuses a cached,
unexpired credential and otherwise invokes the acquisition once, caching the
result only on success.  Returns the new cache content and the outcome. -/
def reuseTokenStep (cached : Option OAuthToken) (acquire : Except TokenError OAuthToken)
    (now : Int) : Option OAuthToken × Except TokenError OAuthToken :=
  match cached with
  | some t =>
    if now < t.expiry then (some t, Except.ok t)
    else
      match acquire with
      | Except.ok t2 => (some t2, Except.ok t2)
      | Except.error e => (some t, Except.error e)
  | none =>
    match acquire with
    | Except.ok t2 => (some t2, Except.ok t2)
    | Except.error e => (none, Except.error e)

/-! ## HTTP handler (function.go)

`HandleEmail` is modelled as a function of the environment configuration
and of the outcomes of its collaborators: the JSON decode of the request
body, `initGmailService`, `email.BuildMime`, the Gmail send call (which
includes the token acquisition performed lazily by the transport), and the
post-send label `Modify` call. -/

/-- Collaborator outcomes and configuration for one `HandleEmail` request. -/
structure HandlerEnv where
  aliasEmail : String
  delegatedUser : String
  parseResult : Except String Request
  initResult : Except String Unit
  buildResult : Request → Except String String
  sendResult : String → Except String String
  labelResult : Except String Unit

/-- Observable outcome of one request: HTTP status and body of the
response, the id of the sent message when the send succeeded (`none` means
no email was sent), and whether the label modification was applied. -/
structure HandlerOutcome where
  status : Nat
  body : String
  sent : Option String
  labelsApplied : Bool
deriving DecidableEq, Repr

/-- Total byte length of the base64 attachment contents. -/
def totalAttachmentSize (req : Request) : Nat :=
  req.attachments.foldl (fun acc att => acc + att.contentB64.length) 0

/-- The attachment size brake: Go compares `float64(totalSize)` against
`20 * 1024 * 1024 * 1.33`; for integer sizes in range this is exactly the
rational comparison below (scaled by 100). -/
def sizeExceeded (req : Request) : Bool :=
  decide (20 * 1024 * 1024 * 133 < 100 * totalAttachmentSize req)

/-- Labels to add after a successful send: the requested label ids, plus
STARRED and IMPORTANT per the option flags (a nil id list is the empty
list). -/
def labelsToAdd (o : Options) : List String :=
  o.labelIDs
    ++ (if o.starred then [labelStarred] else [])
    ++ (if o.important then [labelImportant] else [])

/-- Response body written on success. -/
def jsonSentBody (id : String) : String :=
  "\x7b\"status\":\"sent\", \"id\":\"" ++ id ++ "\"\x7d"

/-- Model of `HandleEmail` (function.go): decode the payload, apply the
loop-protection and size safety brakes, initialise the Gmail service,
inject the alias into `FromAddress`, build the MIME message, send it, and
apply labels, where a label failure is only logged.  Error responses use
the status codes and texts of the Go source (`http.Error` appends a
newline). -/
def handleEmail (env : HandlerEnv) : HandlerOutcome :=
  match env.parseResult with
  | Except.error _ =>
    { status := 400, body := "Bad Request\n", sent := none, labelsApplied := false }
  | Except.ok req =>
    if req.recipient = env.delegatedUser ∨ req.recipient = env.aliasEmail then
      { status := 400, body := "Safety Block: Cannot send to self\n",
        sent := none, labelsApplied := false }
    else if sizeExceeded req then
      { status := 400, body := "Attachments exceed size limit\n",
        sent := none, labelsApplied := false }
    else
      match env.initResult with
      | Except.error _ =>
        { status := 500, body := "Auth Configuration Error\n",
          sent := none, labelsApplied := false }
      | Except.ok _ =>
        match env.buildResult { req with fromAddress := env.aliasEmail } with
        | Except.error _ =>
          { status := 500, body := "Message Build Error\n",
            sent := none, labelsApplied := false }
        | Except.ok raw =>
          match env.sendResult raw with
          | Except.error _ =>
            { status := 502, body := "Upstream API Error\n",
              sent := none, labelsApplied := false }
          | Except.ok id =>
            let labels := labelsToAdd req.options
            { status := 200
              body := jsonSentBody id
              sent := some id
              labelsApplied :=
                if labels.isEmpty then false
                else match env.labelResult with
                  | Except.ok _ => true
                  | Except.error _ => false }

/-! ## Helper lemmas for the builder theorems -/

theorem isInfixStr_appendL (p a b : String) (h : List.IsInfix p.data b.data) :
    List.IsInfix p.data (a ++ b).data := by
  rcases h with ⟨s, t, hst⟩
  exact ⟨a.data ++ s, t, by rw [strData_append, ← hst]; simp [List.append_assoc]⟩

theorem isInfixStr_appendR (p a b : String) (h : List.IsInfix p.data a.data) :
    List.IsInfix p.data (a ++ b).data := by
  rcases h with ⟨s, t, hst⟩
  exact ⟨s, t ++ b.data, by rw [strData_append, ← hst]; simp [List.append_assoc]⟩

theorem isInfixStr_self (p : String) : List.IsInfix p.data p.data :=
  ⟨[], [], by simp⟩

/-- The boundary value occurs verbatim in the top-level header block. -/
theorem boundary_in_topHeaders (req : Request) (b : String) :
    List.IsInfix b.data (topHeaders req b).data := by
  unfold topHeaders
  apply isInfixStr_appendR
  apply isInfixStr_appendR
  apply isInfixStr_appendL
  apply isInfixStr_appendR
  apply isInfixStr_appendL
  exact isInfixStr_self b

/-- The boundary value occurs verbatim in the built message. -/
theorem boundary_in_buildMime (req : Request) (b : String) :
    List.IsInfix b.data (buildMime req b).data := by
  unfold buildMime
  apply isInfixStr_appendR
  apply isInfixStr_appendR
  apply isInfixStr_appendR
  exact boundary_in_topHeaders req b

theorem strConcat_append (l1 l2 : List String) :
    strConcat (l1 ++ l2) = strConcat l1 ++ strConcat l2 := by
  induction l1 with
  | nil => simp [strConcat, strNil_append]
  | cons x xs ih => simp [strConcat, ih, strAppend_assoc]

/-- The attachment loop of `buildMimeE` always succeeds and appends the
rendering of the attachment parts. -/
theorem attachLoopE_ok (b : String) (atts : List Attachment) : ∀ (buf : String),
    attachLoopE b buf atts =
      Except.ok (buf ++ strConcat (atts.map (fun att => renderPart b false (attPart att)))) := by
  induction atts with
  | nil => intro buf; simp [attachLoopE, strConcat, strAppend_nil]
  | cons att rest ih =>
    intro buf
    simp only [attachLoopE, createPartE, bufWriteString, ih, strConcat, List.map_cons]
    rw [show renderPart b false (attPart att) =
      (crlf ++ "--" ++ b ++ crlf) ++ renderHeaders (attPartHeaders att) ++ crlf
        ++ cleanContent att.contentB64 from rfl]
    simp [strAppend_assoc]

/-! ## Sample data used by the witnesses -/

/-- Sample attachment with plain content. -/
def attA : Attachment := ⟨"a.txt", "QUJD", "text/plain"⟩

/-- Sample attachment whose base64 content has embedded newlines and is not
valid base64 (exercising the no-re-validation behaviour). -/
def attB : Attachment := ⟨"b.bin", "Zm9v\n!!not-base64!!\nYmFy", "application/octet-stream"⟩

/-- Empty option flags. -/
def optsNone : Options := ⟨false, false, [], false⟩

/-- Sample request without attachments. -/
def reqNoAtt : Request :=
  ⟨"camp-1", "", "", "user@target.com", [], [], "", "Hi", "<p>ok</p>", optsNone, [], []⟩

/-- Sample request with two attachments. -/
def reqTwoAtt : Request :=
  { reqNoAtt with attachments := [attA, attB] }

/-! ## Claims about BuildMime -/

/-- C9: BuildMime never returns an error: with the in-memory buffer sink the
error branches after `CreatePart` and `Close` are unreachable, and the
fallible builder returns exactly the byte sequence of the total builder for
every request (malformed input included). -/
theorem buildMime_never_errors (req : Request) (b : String) :
    buildMimeE req b = Except.ok (buildMime req b) := by
  have hparts : renderParts b (mimeParts req) =
      (("--" ++ b ++ crlf) ++ renderHeaders bodyPartHeaders ++ crlf ++ sanitize req.bodyHTML)
        ++ strConcat (req.attachments.map (fun att => renderPart b false (attPart att))) := by
    rw [show renderParts b (mimeParts req) =
      renderPart b true (bodyPart req)
        ++ strConcat ((req.attachments.map attPart).map (renderPart b false)) from rfl]
    rw [List.map_map]
    rfl
  unfold buildMimeE
  simp only [createPartE, bufWriteString, attachLoopE_ok]
  unfold writerCloseE bufWriteString buildMime
  rw [hparts]
  simp [strAppend_assoc, strNil_append]

/-- C2: the built message consists of the top-level headers, then exactly
N+1 parts (the HTML body part first, then the attachments in input order),
then the closing delimiter; with no attachments no part carries a
Content-Disposition header. -/
theorem buildMime_parts_structure (req : Request) (b : String) :
    buildMime req b =
      topHeaders req b ++ crlf ++ renderParts b (mimeParts req) ++ closeDelim b
  ∧ (mimeParts req).length = req.attachments.length + 1
  ∧ (mimeParts req).head? = some (bodyPart req)
  ∧ (∀ i, ∀ h : i < req.attachments.length,
      (mimeParts req)[i + 1]? = some (attPart req.attachments[i]))
  ∧ (req.attachments = [] →
      ∀ p ∈ mimeParts req, ∀ kv ∈ p.headers, kv.1 ≠ headerDisposition) := by
  refine ⟨rfl, by simp [mimeParts], rfl, ?_, ?_⟩
  · intro i h
    simp [mimeParts, List.getElem?_map, List.getElem?_eq_getElem h]
  · intro hnil p hp kv hkv
    rw [show mimeParts req = bodyPart req :: req.attachments.map attPart from rfl,
      hnil] at hp
    simp only [List.map_nil, List.mem_singleton] at hp
    subst hp
    simp only [bodyPart, bodyPartHeaders, List.mem_singleton] at hkv
    subst hkv
    decide

/-- Witness for C2 at concrete inputs: with two attachments the part after
the body is the first attachment part, and with no attachments no part
header key is Content-Disposition. -/
theorem buildMime_parts_structure_witness :
    (mimeParts reqTwoAtt)[0 + 1]? = some (attPart attA)
  ∧ (∀ p ∈ mimeParts reqNoAtt, ∀ kv ∈ p.headers, kv.1 ≠ headerDisposition) :=
  ⟨(buildMime_parts_structure reqTwoAtt "BOUNDARY").2.2.2.1 0 (by decide),
   (buildMime_parts_structure reqNoAtt "BOUNDARY").2.2.2.2 rfl⟩

/-- C1 counterexample: two invocations of `BuildMime` on the very same
request are not byte-identical when `multipart.NewWriter` draws two
different random boundaries (here: the boundaries generated from two
different draws of the 30 random bytes), so the built message is not a pure
function of the request and the sanitization policy alone. -/
theorem buildMime_boundary_counterexample :
    randomBoundary (List.replicate 30 0) ≠ randomBoundary (List.replicate 30 255)
  ∧ buildMime reqNoAtt (randomBoundary (List.replicate 30 0))
      ≠ buildMime reqNoAtt (randomBoundary (List.replicate 30 255)) := by
  constructor
  · decide
  · decide

/-- C1 amended: the built message is a pure function of the request, the
sanitization policy and the boundary generated by `multipart.NewWriter` for
the invocation: equal requests and equal boundaries give identical bytes,
and the boundary value genuinely occurs in the output. -/
theorem buildMime_deterministic_given_boundary (r1 r2 : Request) (b1 b2 : String)
    (hr : r1 = r2) (hb : b1 = b2) :
    buildMime r1 b1 = buildMime r2 b2 ∧ List.IsInfix b1.data (buildMime r1 b1).data := by
  subst hr; subst hb
  exact ⟨rfl, boundary_in_buildMime r1 b1⟩

/-- Witness for the amended C1 at a concrete request and boundary. -/
theorem buildMime_deterministic_given_boundary_witness :
    buildMime reqNoAtt "bw1" = buildMime reqNoAtt "bw1"
  ∧ List.IsInfix ("bw1").data (buildMime reqNoAtt "bw1").data :=
  buildMime_deterministic_given_boundary reqNoAtt reqNoAtt "bw1" "bw1" rfl rfl

/-- C10: the From header of every built message uses the literal address
`me`: the message starts with `From: me` when the sender name is empty and
with `From: "<SenderName>" <me>` otherwise, and the message is entirely
independent of the `fromAddress` field injected by the handler. -/
theorem from_header_uses_me (req : Request) (a b : String) :
    buildMime { req with fromAddress := a } b = buildMime req b
  ∧ ∃ rest, buildMime req b =
      (if req.senderName = "" then "From: me" ++ crlf
       else "From: \"" ++ req.senderName ++ "\" <me>" ++ crlf) ++ rest := by
  constructor
  · rfl
  · have hFrom : fromHeader req =
        (if req.senderName = "" then "From: me" ++ crlf
         else "From: \"" ++ req.senderName ++ "\" <me>" ++ crlf) := by
      unfold fromHeader
      by_cases h : req.senderName = ""
      · rw [if_pos h, if_pos h]; rfl
      · rw [if_neg h, if_neg h]; rfl
    refine ⟨?_, ?_⟩
    · exact (formatAddr headerTo req.recipient
        ++ ((if req.cc.length > 0 then formatAddr headerCC (joinComma req.cc) else "")
        ++ ((if req.bcc.length > 0 then formatAddr headerBCC (joinComma req.bcc) else "")
        ++ ((if req.replyTo ≠ "" then formatAddr headerReplyTo req.replyTo else "")
        ++ (formatAddr headerSubject req.subject
        ++ ((headerMIMEVersion ++ ": " ++ mimeVer1 ++ crlf)
        ++ ((headerContentType ++ ": " ++ mimeMultipartMixed ++ "; boundary=" ++ b ++ crlf)
        ++ ((if req.options.readReceipt then headerReceipt ++ ": me" ++ crlf else "")
        ++ (strConcat (req.customHeaders.map (fun kv => formatAddr kv.1 kv.2))
        ++ (crlf ++ (renderParts b (mimeParts req) ++ closeDelim b)))))))))))
    · rw [← hFrom]
      unfold buildMime topHeaders
      simp [strAppend_assoc]

/-! ## Helper lemmas for part content occurrence -/

theorem isInfixStr_strConcat_of_mem (x : String) (l : List String) (hx : x ∈ l) :
    List.IsInfix x.data (strConcat l).data := by
  induction l with
  | nil => cases hx
  | cons y ys ih =>
    rcases List.mem_cons.mp hx with h | h
    · subst h; exact isInfixStr_appendR _ _ _ (isInfixStr_self x)
    · exact isInfixStr_appendL _ _ _ (ih h)

theorem content_isInfix_renderPart (b : String) (first : Bool) (p : MimePart) :
    List.IsInfix p.content.data (renderPart b first p).data := by
  unfold renderPart
  exact isInfixStr_appendL _ _ _ (isInfixStr_self _)

theorem content_isInfix_buildMime (req : Request) (b : String) (i : Nat)
    (h : i < req.attachments.length) :
    List.IsInfix (attPart req.attachments[i]).content.data (buildMime req b).data := by
  have h1 := content_isInfix_renderPart b false (attPart req.attachments[i])
  have hmem : renderPart b false (attPart req.attachments[i])
      ∈ (req.attachments.map attPart).map (renderPart b false) :=
    List.mem_map_of_mem _ (List.mem_map_of_mem _ (List.getElem_mem h))
  have h2 := isInfixStr_strConcat_of_mem _ _ hmem
  have h3 := h1.trans h2
  unfold buildMime
  apply isInfixStr_appendR
  apply isInfixStr_appendL
  rw [show renderParts b (mimeParts req) =
    renderPart b true (bodyPart req)
      ++ strConcat ((req.attachments.map attPart).map (renderPart b false)) from rfl]
  exact isInfixStr_appendL _ _ _ h3

theorem body_isInfix_buildMime (req : Request) (b : String) :
    List.IsInfix (sanitize req.bodyHTML).data (buildMime req b).data := by
  have h1 := content_isInfix_renderPart b true (bodyPart req)
  unfold buildMime
  apply isInfixStr_appendR
  apply isInfixStr_appendL
  rw [show renderParts b (mimeParts req) =
    renderPart b true (bodyPart req)
      ++ strConcat ((req.attachments.map attPart).map (renderPart b false)) from rfl]
  exact isInfixStr_appendR _ _ _ h1

/-! ## Claims about attachment handling and sanitization -/

/-- C5: for an attachment whose base64 content has embedded newlines, the
corresponding part is the (i+1)-th part of the message, its body is the
base64 content with the newline characters removed (no base64 validation is
applied), and that body occurs verbatim in the built output. -/
theorem attachment_newlines_stripped (req : Request) (b : String) (i : Nat)
    (h : i < req.attachments.length)
    (hnl : '\n' ∈ req.attachments[i].contentB64.data) :
    (mimeParts req)[i + 1]? = some (attPart req.attachments[i])
  ∧ (attPart req.attachments[i]).content =
      String.mk (req.attachments[i].contentB64.data.filter (fun c => c ≠ '\n'))
  ∧ '\n' ∉ (attPart req.attachments[i]).content.data
  ∧ List.IsInfix (attPart req.attachments[i]).content.data (buildMime req b).data := by
  refine ⟨?_, rfl, ?_, content_isInfix_buildMime req b i h⟩
  · simp [mimeParts, List.getElem?_map, List.getElem?_eq_getElem h]
  · simp [attPart, cleanContent]

/-- Witness for C5: the second attachment of the sample request has
newlines and invalid base64; its part body is the filtered content. -/
theorem attachment_newlines_stripped_witness :
    (mimeParts reqTwoAtt)[1 + 1]? = some (attPart attB)
  ∧ (attPart attB).content = String.mk (attB.contentB64.data.filter (fun c => c ≠ '\n'))
  ∧ '\n' ∉ (attPart attB).content.data
  ∧ List.IsInfix (attPart attB).content.data (buildMime reqTwoAtt "B").data :=
  attachment_newlines_stripped reqTwoAtt "B" 1 (by decide) (by decide)

/-- C8: when the request body contains `<script>alert(1)</script>`, the
sanitized body placed in the first (HTML) part of the message contains no
`<script` substring, and that sanitized body is what is embedded in the
build output. -/
theorem sanitized_body_no_script (req : Request) (b : String)
    (h : List.IsInfix ("<script>alert(1)</script>").data req.bodyHTML.data) :
    (mimeParts req).head? = some (bodyPart req)
  ∧ (bodyPart req).content = sanitize req.bodyHTML
  ∧ List.IsInfix (sanitize req.bodyHTML).data (buildMime req b).data
  ∧ ¬ List.IsInfix ("<script").data (bodyPart req).content.data :=
  ⟨rfl, rfl, body_isInfix_buildMime req b, sanitize_no_script req.bodyHTML⟩

/-- Sample request whose body is exactly the script payload. -/
def reqScript : Request :=
  { reqNoAtt with bodyHTML := "<script>alert(1)</script>" }

/-- Witness for C8 at the concrete script payload. -/
theorem sanitized_body_no_script_witness :
    (mimeParts reqScript).head? = some (bodyPart reqScript)
  ∧ (bodyPart reqScript).content = sanitize reqScript.bodyHTML
  ∧ List.IsInfix (sanitize reqScript.bodyHTML).data (buildMime reqScript "B").data
  ∧ ¬ List.IsInfix ("<script").data (bodyPart reqScript).content.data :=
  sanitized_body_no_script reqScript "B" ⟨[], [], by decide⟩

/-! ## Claims about the token source -/

/-- C3: when the token endpoint returns a non-200 status or a body that
does not decode as `(access_token, token_type, expires_in)`, `Token` fails
with an ExchangeError, and a caller-side cache that was empty stays empty
(no credential is returned or cached). -/
theorem token_exchange_failure (k : KeylessTokenSource) (env : TokenEnv)
    (jwt : String) (resp : HTTPResponse)
    (hsign : env.sign (marshalClaims (mkClaims k env.now)) = Except.ok jwt)
    (hpost : env.post oauth2TokenURL (exchangeForm jwt) = Except.ok resp)
    (hbad : resp.statusCode ≠ 200 ∨ ∃ e, decodeTokenResponse resp.body = Except.error e) :
    (∃ msg, token k env = Except.error (TokenError.exchangeError msg))
  ∧ ∀ now2, (reuseTokenStep none (token k env) now2).1 = none := by
  have hmain : ∃ msg, token k env = Except.error (TokenError.exchangeError msg) := by
    unfold token
    simp only [hsign]
    simp only [hpost]
    rcases hbad with hst | ⟨e, hdec⟩
    · rw [if_pos hst]
      exact ⟨_, rfl⟩
    · by_cases hst : resp.statusCode ≠ 200
      · rw [if_pos hst]
        exact ⟨_, rfl⟩
      · rw [if_neg hst]
        simp only [hdec]
        exact ⟨_, rfl⟩
  refine ⟨hmain, ?_⟩
  intro now2
  rcases hmain with ⟨msg, hm⟩
  rw [hm]
  rfl

/-- Sample token source configuration. -/
def kW : KeylessTokenSource :=
  ⟨"robot@proj.iam.gserviceaccount.com", "notifications@example.com",
   ["https://www.googleapis.com/auth/gmail.send",
    "https://www.googleapis.com/auth/gmail.modify"]⟩

/-- An HTTP 500 response from the token endpoint. -/
def respErr : HTTPResponse := ⟨500, "500 Internal Server Error", "oops"⟩

/-- Environment in which signing succeeds and the exchange returns 500. -/
def envErr : TokenEnv :=
  ⟨1000, fun _ => Except.ok "signed-jwt", fun _ _ => Except.ok respErr⟩

/-- Witness for C3: an HTTP 500 exchange response yields an ExchangeError
and leaves the cache empty. -/
theorem token_exchange_failure_witness :
    (∃ msg, token kW envErr = Except.error (TokenError.exchangeError msg))
  ∧ (reuseTokenStep none (token kW envErr) 77).1 = none :=
  ⟨(token_exchange_failure kW envErr "signed-jwt" respErr rfl rfl (Or.inl (by decide))).1,
   (token_exchange_failure kW envErr "signed-jwt" respErr rfl rfl (Or.inl (by decide))).2 77⟩

/-- C4: `Token` builds the claim set with issuer the service account,
subject the impersonation target, the configured scope list, audience the
fixed endpoint, issued-at now and expiry now + 3600; it exchanges the
signed assertion via a form POST with exactly the jwt-bearer grant type and
assertion fields; and on a 200 response whose body decodes, it returns the
credential with absolute expiry now + expires-in. -/
theorem token_success_contract (k : KeylessTokenSource) (env : TokenEnv)
    (jwt : String) (resp : HTTPResponse) (r : TokenResponseJSON)
    (hsign : env.sign (marshalClaims (mkClaims k env.now)) = Except.ok jwt)
    (hpost : env.post oauth2TokenURL (exchangeForm jwt) = Except.ok resp)
    (hstatus : resp.statusCode = 200)
    (hdec : decodeTokenResponse resp.body = Except.ok r) :
    token k env = Except.ok
      { accessToken := r.accessToken, tokenType := r.tokenType, expiry := env.now + r.expiresIn }
  ∧ mkClaims k env.now =
      { iss := k.serviceAccountEmail, sub := k.delegateEmail, scope := k.scopes,
        aud := "https://oauth2.googleapis.com/token", exp := env.now + 3600, iat := env.now }
  ∧ exchangeForm jwt =
      [("grant_type", "urn:ietf:params:oauth:grant-type:jwt-bearer"), ("assertion", jwt)] := by
  refine ⟨?_, rfl, rfl⟩
  unfold token
  simp only [hsign]
  simp only [hpost]
  rw [if_neg (by simp [hstatus])]
  simp only [hdec]

/-- A 200 response with a decodable token body. -/
def respOk : HTTPResponse :=
  ⟨200, "200 OK",
   "\x7b\"access_token\":\"tok-abc\",\"token_type\":\"Bearer\",\"expires_in\":3600\x7d"⟩

/-- Environment in which signing and the exchange both succeed. -/
def envOk : TokenEnv :=
  ⟨1000, fun _ => Except.ok "signed-jwt", fun _ _ => Except.ok respOk⟩

/-- Witness for C4 at a concrete successful exchange. -/
theorem token_success_contract_witness :
    token kW envOk = Except.ok ⟨"tok-abc", "Bearer", 1000 + 3600⟩
  ∧ mkClaims kW 1000 =
      { iss := kW.serviceAccountEmail, sub := kW.delegateEmail, scope := kW.scopes,
        aud := "https://oauth2.googleapis.com/token", exp := 1000 + 3600, iat := 1000 }
  ∧ exchangeForm "signed-jwt" =
      [("grant_type", "urn:ietf:params:oauth:grant-type:jwt-bearer"),
       ("assertion", "signed-jwt")] :=
  token_success_contract kW envOk "signed-jwt" respOk ⟨"tok-abc", 3600, "Bearer"⟩
    rfl rfl rfl (by rfl)

/-- C7: when the IAM signing call fails, `Token` fails with a SigningError
that surfaces the failure immediately, and the outcome is independent of
the exchange POST behaviour (no token-exchange POST is issued, and no
credential is returned). -/
theorem token_signing_failure (k : KeylessTokenSource) (env : TokenEnv) (e : String)
    (hsign : env.sign (marshalClaims (mkClaims k env.now)) = Except.error e) :
    token k env = Except.error (TokenError.signingError ("failed to sign jwt via IAM API: " ++ e))
  ∧ ∀ post2, token k { env with post := post2 } = token k env := by
  constructor
  · unfold token
    simp only [hsign]
  · intro post2
    unfold token
    rw [show ({ env with post := post2 } : TokenEnv).sign = env.sign from rfl,
        show ({ env with post := post2 } : TokenEnv).now = env.now from rfl]
    simp only [hsign]

/-- Environment in which the signing call is denied. -/
def envSignFail : TokenEnv :=
  ⟨1000, fun _ => Except.error "permission denied", fun _ _ => Except.ok respOk⟩

/-- Witness for C7: the signing denial surfaces as a SigningError and the
result does not change when the POST collaborator is replaced. -/
theorem token_signing_failure_witness :
    token kW envSignFail =
      Except.error (TokenError.signingError ("failed to sign jwt via IAM API: " ++ "permission denied"))
  ∧ token kW { envSignFail with post := fun _ _ => Except.error "unreachable" } =
      token kW envSignFail :=
  ⟨(token_signing_failure kW envSignFail "permission denied" rfl).1,
   (token_signing_failure kW envSignFail "permission denied" rfl).2
     (fun _ _ => Except.error "unreachable")⟩

/-! ## Claim about the handler -/

/-- C6: any failure of the service initialisation, of the message builder,
or of the send pipeline (which includes the token acquisition performed by
the transport) produces a non-2xx response with no email sent; in the first
two cases the outcome is independent of the send collaborator (no send call
is made).  The only exception is a label failure after a successful send:
the response status, body (which carries the sent message id) and sent
message are identical whether the label call fails or succeeds. -/
theorem handleEmail_error_contract (env : HandlerEnv) :
    ((∃ e, env.initResult = Except.error e) →
      ¬ (200 ≤ (handleEmail env).status ∧ (handleEmail env).status < 300)
      ∧ (handleEmail env).sent = none
      ∧ ∀ send2, handleEmail { env with sendResult := send2 } = handleEmail env)
  ∧ ((∃ req e, env.parseResult = Except.ok req
        ∧ env.buildResult { req with fromAddress := env.aliasEmail } = Except.error e) →
      ¬ (200 ≤ (handleEmail env).status ∧ (handleEmail env).status < 300)
      ∧ (handleEmail env).sent = none
      ∧ ∀ send2, handleEmail { env with sendResult := send2 } = handleEmail env)
  ∧ ((∃ e, ∀ raw, env.sendResult raw = Except.error e) →
      ¬ (200 ≤ (handleEmail env).status ∧ (handleEmail env).status < 300)
      ∧ (handleEmail env).sent = none)
  ∧ (∀ e, (handleEmail { env with labelResult := Except.error e }).status = (handleEmail env).status
      ∧ (handleEmail { env with labelResult := Except.error e }).body = (handleEmail env).body
      ∧ (handleEmail { env with labelResult := Except.error e }).sent = (handleEmail env).sent)
  ∧ (∀ req raw id, env.parseResult = Except.ok req →
      ¬ (req.recipient = env.delegatedUser ∨ req.recipient = env.aliasEmail) →
      sizeExceeded req = false →
      env.initResult = Except.ok () →
      env.buildResult { req with fromAddress := env.aliasEmail } = Except.ok raw →
      env.sendResult raw = Except.ok id →
      (handleEmail env).status = 200
      ∧ (handleEmail env).body = jsonSentBody id
      ∧ (handleEmail env).sent = some id) := by
  obtain ⟨alias2, deleg, parseR, initR, buildR, sendR, labelR⟩ := env
  refine ⟨?_, ?_, ?_, ?_, ?_⟩
  · rintro ⟨e, he⟩
    subst he
    cases parseR with
    | error pe => refine ⟨?_, ?_, fun send2 => ?_⟩ <;> simp [handleEmail]
    | ok req =>
      by_cases h1 : req.recipient = deleg ∨ req.recipient = alias2
      · refine ⟨?_, ?_, fun send2 => ?_⟩ <;> simp [handleEmail, h1]
      · by_cases h2 : sizeExceeded req
        · refine ⟨?_, ?_, fun send2 => ?_⟩ <;> simp [handleEmail, h1, h2]
        · refine ⟨?_, ?_, fun send2 => ?_⟩ <;> simp [handleEmail, h1, h2]
  · rintro ⟨req, e, hp, hb⟩
    subst hp
    have hb2 : buildR { req with fromAddress := alias2 } = Except.error e := hb
    by_cases h1 : req.recipient = deleg ∨ req.recipient = alias2
    · refine ⟨?_, ?_, fun send2 => ?_⟩ <;> simp [handleEmail, h1]
    · by_cases h2 : sizeExceeded req
      · refine ⟨?_, ?_, fun send2 => ?_⟩ <;> simp [handleEmail, h1, h2]
      · cases initR with
        | error ie => refine ⟨?_, ?_, fun send2 => ?_⟩ <;> simp [handleEmail, h1, h2]
        | ok u => refine ⟨?_, ?_, fun send2 => ?_⟩ <;> simp [handleEmail, h1, h2, hb2]
  · rintro ⟨e, hs⟩
    have hs2 : ∀ raw, sendR raw = Except.error e := hs
    cases parseR with
    | error pe => refine ⟨?_, ?_⟩ <;> simp [handleEmail]
    | ok req =>
      by_cases h1 : req.recipient = deleg ∨ req.recipient = alias2
      · refine ⟨?_, ?_⟩ <;> simp [handleEmail, h1]
      · by_cases h2 : sizeExceeded req
        · refine ⟨?_, ?_⟩ <;> simp [handleEmail, h1, h2]
        · cases initR with
          | error ie => refine ⟨?_, ?_⟩ <;> simp [handleEmail, h1, h2]
          | ok u =>
            cases hbr : buildR { req with fromAddress := alias2 } with
            | error be => refine ⟨?_, ?_⟩ <;> simp [handleEmail, h1, h2, hbr]
            | ok raw => refine ⟨?_, ?_⟩ <;> simp [handleEmail, h1, h2, hbr, hs2 raw]
  · intro e
    cases parseR with
    | error pe => exact ⟨rfl, rfl, rfl⟩
    | ok req =>
      by_cases h1 : req.recipient = deleg ∨ req.recipient = alias2
      · refine ⟨?_, ?_, ?_⟩ <;> simp [handleEmail, h1]
      · by_cases h2 : sizeExceeded req
        · refine ⟨?_, ?_, ?_⟩ <;> simp [handleEmail, h1, h2]
        · cases initR with
          | error ie => refine ⟨?_, ?_, ?_⟩ <;> simp [handleEmail, h1, h2]
          | ok u =>
            cases hbr : buildR { req with fromAddress := alias2 } with
            | error be => refine ⟨?_, ?_, ?_⟩ <;> simp [handleEmail, h1, h2, hbr]
            | ok raw =>
              cases hsr : sendR raw with
              | error se => refine ⟨?_, ?_, ?_⟩ <;> simp [handleEmail, h1, h2, hbr, hsr]
              | ok id => refine ⟨?_, ?_, ?_⟩ <;> simp [handleEmail, h1, h2, hbr, hsr]
  · intro req raw id hp h1 h2 hinit hb hs
    subst hp
    subst hinit
    have hb2 : buildR { req with fromAddress := alias2 } = Except.ok raw := hb
    have hs2 : sendR raw = Except.ok id := hs
    refine ⟨?_, ?_, ?_⟩ <;> simp [handleEmail, h1, h2, hb2, hs2]

/-- Handler environment whose service initialisation fails. -/
def envInitFail : HandlerEnv :=
  ⟨"no-reply@example.com", "notifications@example.com", Except.ok reqNoAtt,
   Except.error "adc failure", fun _ => Except.ok "RAW", fun _ => Except.ok "MSG-1",
   Except.ok ()⟩

/-- Handler environment where everything succeeds except the label call. -/
def envLabelFail : HandlerEnv :=
  ⟨"no-reply@example.com", "notifications@example.com", Except.ok reqNoAtt,
   Except.ok (), fun _ => Except.ok "RAW", fun _ => Except.ok "MSG-1",
   Except.error "label fail"⟩

/-- Witness for C6: a failed initialisation yields a non-2xx response with
nothing sent, and a label failure after a successful send still yields the
200 response carrying the sent message id. -/
theorem handleEmail_error_contract_witness :
    (¬ (200 ≤ (handleEmail envInitFail).status ∧ (handleEmail envInitFail).status < 300)
      ∧ (handleEmail envInitFail).sent = none)
  ∧ ((handleEmail envLabelFail).status = 200
      ∧ (handleEmail envLabelFail).body = jsonSentBody "MSG-1"
      ∧ (handleEmail envLabelFail).sent = some "MSG-1") :=
  ⟨⟨((handleEmail_error_contract envInitFail).1 ⟨"adc failure", rfl⟩).1,
    ((handleEmail_error_contract envInitFail).1 ⟨"adc failure", rfl⟩).2.1⟩,
   (handleEmail_error_contract envLabelFail).2.2.2.2 reqNoAtt "RAW" "MSG-1" rfl
     (by decide) rfl rfl rfl rfl⟩
